import Mathlib

/-!
A verification development for the grass-field chunk streaming engine
(`GrassEngine`, `src/unnamed/part_001`) and its noise utilities
(`src/utils/math.tsx`).

Modelling conventions (shallow embedding):
* JavaScript numbers are modelled by `ℚ`.  All arithmetic appearing in the
  claims (grid stepping, thresholds, floors, squared distances) is exact on
  the rationals; floating-point rounding is not modelled.
* `Math.sqrt` never needs to be evaluated: every comparison
  `Math.sqrt d2 < t` in the source is embedded as `0 < t ∧ d2 < t ^ 2`,
  which is equivalent for `0 ≤ d2` (proved in `getLODLevelSqB_eq_getLODLevelB`).
* `Math.sin`, `Math.cos` and the process-seeded Perlin `noise2D` permutation
  are fixed for a process lifetime; they are abstracted as the fields of a
  `ProcEnv` value threaded through the definitions.
* `Math.random()` draws are modelled as an explicit stream `ℕ → ℚ` passed to
  `loadChunk` (the per-chunk slice of the global stream); tree placement
  never reads it, mirroring the source.
* The THREE.js scene graph (meshes, lights, shadow snapping) is out of scope;
  the store-level state is the chunk `Map`, the `lastUpdatePos` marker and the
  current configuration.  GPU resource disposal is modelled by emitting
  `Resource` values naming the object on which `.dispose()` is called.
-/

namespace Grass

/-- One row of the `LOD_LEVELS` table. -/
structure LODLevel where
  distance : ℚ
  density : ℚ
  segments : ℕ
  castShadow : Bool
deriving DecidableEq

/-- `LOD_LEVELS` from `src/unnamed/part_001` lines 35-39. -/
def LOD_LEVELS : List LODLevel :=
  [ { distance := 45, density := 1.0, segments := 4, castShadow := true },
    { distance := 85, density := 0.4, segments := 2, castShadow := true },
    { distance := 150, density := 0.1, segments := 1, castShadow := false } ]

/-- `GrassConfig` interface (`part_001` lines 11-33).  Colors are opaque
strings; fields marked `?:` in TypeScript are `Option`s. -/
structure GrassConfig where
  bladeCount : ℚ
  bladeWidth : ℚ
  bladeHeight : ℚ
  windSpeed : ℚ
  windStrength : ℚ
  baseColor : String
  tipColor : String
  sunElevation : ℚ
  sunAzimuth : ℚ
  sunIntensity : ℚ
  sunColor : String
  ambientIntensity : ℚ
  fogDensity : ℚ
  fogColor : String
  groundColor : String
  lodBias : ℚ
  lodDebug : Option Bool
  peripheralDensity : Option ℚ
  treeDensity : Option ℚ
  treeColor : Option String
  treeScale : Option ℚ
deriving DecidableEq

/-- `this.CHUNK_SIZE` (line 230). -/
def CHUNK_SIZE : ℚ := 30

/-- `this.BASE_MAX_DISTANCE = LOD_LEVELS[LOD_LEVELS.length - 1].distance` (line 231). -/
def BASE_MAX_DISTANCE : ℚ :=
  (LOD_LEVELS.getD (LOD_LEVELS.length - 1)
    { distance := 0, density := 0, segments := 0, castShadow := false }).distance

/-- `this.UPDATE_THRESHOLD` (line 232). -/
def UPDATE_THRESHOLD : ℚ := 5

/-- JS `lodBias || 1.0` (lines 581 and 783): a zero bias is falsy and is
replaced by `1.0`; every other rational passes through. -/
def effBias (lodBias : ℚ) : ℚ := if lodBias = 0 then 1 else lodBias

/-- JS `v || 0` on an optional numeric field (`treeDensity || 0`, line 640):
`undefined` and `0` both give `0`. -/
def jsOrZero (o : Option ℚ) : ℚ := o.getD 0

/-- JS `v || 1.0` on an optional numeric field (`treeScale || 1.0`, line 649):
`undefined` and `0` both give `1`. -/
def jsOrOne (o : Option ℚ) : ℚ :=
  match o with
  | none => 1
  | some v => if v = 0 then 1 else v

/-- JS `?? 1.0` on `peripheralDensity` (line 701): only `undefined` gives `1`
(a present `0` stays `0`). -/
def jsCoalesceOne (o : Option ℚ) : ℚ := o.getD 1

/-- The scan of `getLODLevel` (lines 580-588): return the first index `i`
with `distance < LOD_LEVELS[i].distance * bias`, else `-1`. -/
def getLODLevelAux (bias distance : ℚ) : List LODLevel → ℤ → ℤ
  | [], _ => -1
  | l :: ls, i =>
      if distance < l.distance * bias then i else getLODLevelAux bias distance ls (i + 1)

/-- `getLODLevel(distance)` with the bias taken from the configuration
(`const bias = this.currentConfig.lodBias || 1.0`). -/
def getLODLevelB (bias distance : ℚ) : ℤ := getLODLevelAux bias distance LOD_LEVELS 0

/-- `GrassEngine.getLODLevel` as a function of the configuration. -/
def getLODLevel (cfg : GrassConfig) (distance : ℚ) : ℤ :=
  getLODLevelB (effBias cfg.lodBias) distance

/-- The same scan applied to a *squared* distance: the comparison
`Math.sqrt d2 < t` is rendered as `0 < t ∧ d2 < t ^ 2` (exact for `0 ≤ d2`,
see `getLODLevelSqB_eq_getLODLevelB`). -/
def getLODLevelSqAux (bias d2 : ℚ) : List LODLevel → ℤ → ℤ
  | [], _ => -1
  | l :: ls, i =>
      if 0 < l.distance * bias ∧ d2 < (l.distance * bias) ^ 2 then i
      else getLODLevelSqAux bias d2 ls (i + 1)

/-- `getLODLevel` on a squared distance. -/
def getLODLevelSqB (bias d2 : ℚ) : ℤ := getLODLevelSqAux bias d2 LOD_LEVELS 0

/-- `getBladeDensity` (lines 590-593): `bladeCount / (200 * 200)`. -/
def getBladeDensity (cfg : GrassConfig) : ℚ := cfg.bladeCount / (200 * 200)

/-- The computed per-chunk blade count (lines 699-703):
`Math.floor(density * chunkArea * effectiveDensity)` where
`effectiveDensity = lodIndex === 0 ? density : density * peripheralMult`. -/
def bladeCountFor (cfg : GrassConfig) (lodIndex : ℤ) : ℤ :=
  let lodSettings := LOD_LEVELS.getD lodIndex.toNat
    { distance := 0, density := 0, segments := 0, castShadow := false }
  let chunkArea := CHUNK_SIZE * CHUNK_SIZE
  let peripheralMult := jsCoalesceOne cfg.peripheralDensity
  let effectiveDensity :=
    if lodIndex = 0 then lodSettings.density else lodSettings.density * peripheralMult
  ⌊getBladeDensity cfg * chunkArea * effectiveDensity⌋

/-- Process-fixed transcendental functions: the seeded Perlin permutation
behind `noise2D` (`src/utils/math.tsx`) and `Math.sin`/`Math.cos`.  They are
fixed for a process lifetime and abstracted here as opaque rational maps. -/
structure ProcEnv where
  noise2D : ℚ → ℚ → ℚ
  sinv : ℚ → ℚ
  cosv : ℚ → ℚ

/-- `Math.PI` as a rational literal (its exact double value is immaterial to
every claim below). -/
def mathPI : ℚ := 3.141592653589793

/-- `getTerrainHeight` (lines 303-308): three noise octaves. -/
def getTerrainHeight (env : ProcEnv) (x z : ℚ) : ℚ :=
  env.noise2D (x * 0.01) (z * 0.01) * 12
    + env.noise2D (x * 0.05) (z * 0.05) * 3
    + env.noise2D (x * 0.2) (z * 0.2) * 0.5

/-- `randomRange(min, max)` (`src/utils/math.tsx` line 6) applied to one
`Math.random()` draw `r`. -/
def randomRangeDraw (r lo hi : ℚ) : ℚ := r * (hi - lo) + lo

/-- One grass blade instance: `aOffset` (3 floats), `aScale`, `aRotation`
(lines 707-721). -/
structure GrassInstance where
  ox : ℚ
  oy : ℚ
  oz : ℚ
  scale : ℚ
  rot : ℚ
deriving DecidableEq

/-- The grass instance arrays built by `loadChunk` (lines 707-721).  `rng`
is the stream of successive `Math.random()` draws consumed by this call;
blade `i` consumes draws `4*i .. 4*i+3` (lx, lz, scale, rotation). -/
def grassInstances (env : ProcEnv) (rng : ℕ → ℚ) (x z : ℚ) (n : ℕ) :
    List GrassInstance :=
  (List.range n).map fun i =>
    let lx := (rng (4 * i) - 0.5) * CHUNK_SIZE
    let lz := (rng (4 * i + 1) - 0.5) * CHUNK_SIZE
    let wx := x + lx
    let wz := z + lz
    let h := getTerrainHeight env wx wz
    { ox := wx, oy := h, oz := wz,
      scale := randomRangeDraw (rng (4 * i + 2)) 0.8 1.4,
      rot := randomRangeDraw (rng (4 * i + 3)) 0 (mathPI * 2) }

/-- One tree placement transform: position, uniform scale, yaw
(lines 664-671). -/
structure TreeTransform where
  px : ℚ
  py : ℚ
  pz : ℚ
  scale : ℚ
  rotY : ℚ
deriving DecidableEq

/-- The tree placement scan of `loadChunk` (lines 638-677): a 5×5 sub-grid of
6-unit cells; each cell derives a pseudo-random value from
`sin(cellX * 12.9898 + cellZ * 78.233) * 43758.5453`, jitters the position,
modulates acceptance by coherent noise, and emits a transform.  No
`Math.random()` draw is consumed anywhere on this path. -/
def treePlacements (env : ProcEnv) (cfg : GrassConfig) (x z : ℚ) (lodIndex : ℤ) :
    List TreeTransform :=
  let densityProb := jsOrZero cfg.treeDensity
  if densityProb > 0.01 ∧ lodIndex ≤ 1 then
    let gridCellSize : ℚ := 6.0
    let cells : ℕ := 5
    let startOffset : ℚ := -(CHUNK_SIZE / 2)
    let treeScale := jsOrOne cfg.treeScale
    (List.range cells).flatMap fun cx =>
      (List.range cells).filterMap fun cz =>
        let cellX := x + startOffset + (cx : ℚ) * gridCellSize
        let cellZ := z + startOffset + (cz : ℚ) * gridCellSize
        let seed := env.sinv (cellX * 12.9898 + cellZ * 78.233) * 43758.5453
        let rand := seed - ⌊seed⌋
        let jitterX := (rand * 2 - 1) * (gridCellSize * 0.4)
        let jitterZ := env.cosv seed * (gridCellSize * 0.4)
        let wx := cellX + jitterX
        let wz := cellZ + jitterZ
        let forestNoise := env.noise2D (wx * 0.03) (wz * 0.03)
        if forestNoise * 0.5 + 0.5 < densityProb * 1.5 ∧ rand < 0.8 then
          let h := getTerrainHeight env wx wz
          some { px := wx, py := h - 0.5, pz := wz,
                 scale := treeScale * (0.8 + rand * 0.4),
                 rotY := rand * mathPI * 2 }
        else none
  else []

/-- What the grass `InstancedMesh` of a chunk uses as its geometry
(lines 705-745): a freshly built per-chunk `InstancedBufferGeometry` when
`bladeCount > 0`, and the *shared* LOD template `this.lodGeometries[lodIndex]`
directly when `bladeCount ≤ 0` (line 744). -/
inductive GeoRef where
  | sharedLOD (i : ℕ)
  | perChunk (x z : ℚ)
deriving DecidableEq

/-- The object a `.dispose()` call lands on.  `lodGeometry`, `grassMaterial`,
`groundMaterial` and the tree geometries/materials are the shared resources
owned by `initResources`; the `chunk...` constructors are chunk-owned. -/
inductive Resource where
  | lodGeometry (i : ℕ)
  | grassMaterial
  | groundMaterial
  | treeTrunkGeo
  | treeFoliageGeo
  | treeTrunkMat
  | treeFoliageMat
  | chunkGrassGeometry (x z : ℚ)
  | chunkGroundGeometry (x z : ℚ)
  | chunkDebugMaterial (x z : ℚ)
deriving DecidableEq

/-- `ChunkData` (lines 41-48) at the level of detail the claims need:
the grass mesh's geometry reference and instance count/arrays, whether the
ground mesh carries a per-chunk debug `MeshBasicMaterial` (`lodDebug` path,
lines 619-629), the optional tree batch, and the stored LOD level. -/
structure ChunkData where
  grassGeo : GeoRef
  grassCount : ℤ
  grassInst : List GrassInstance
  debugMat : Bool
  trees : Option (List TreeTransform)
  lodLevel : ℤ
deriving DecidableEq

/-- A 3D vector (camera position / `lastUpdatePos`). -/
structure V3 where
  x : ℚ
  y : ℚ
  z : ℚ
deriving DecidableEq

/-- Squared 3D distance; `a.distanceTo b < t` is `distSq3 a b < t ^ 2` for
`0 ≤ t` (exact, both sides nonnegative). -/
def distSq3 (a b : V3) : ℚ := (a.x - b.x) ^ 2 + (a.y - b.y) ^ 2 + (a.z - b.z) ^ 2

/-- The store-level state of a `GrassEngine`: the `this.chunks` map (an
insertion-ordered association list keyed by the chunk key — the template
string `x + ":" + z` is injective on number pairs, so the pair itself is the
key), `this.lastUpdatePos` and `this.currentConfig`. -/
structure EngineState where
  chunks : List ((ℚ × ℚ) × ChunkData)
  lastUpdatePos : V3
  config : GrassConfig
deriving DecidableEq

/-- The state right after construction (line 233: `lastUpdatePos` starts at
the far sentinel; the chunk map starts empty). -/
def mkState (cfg : GrassConfig) : EngineState :=
  { chunks := [], lastUpdatePos := { x := 99999, y := 99999, z := 99999 }, config := cfg }

/-- `Map.get` on the chunk store. -/
def alLookup {α : Type} : List ((ℚ × ℚ) × α) → (ℚ × ℚ) → Option α
  | [], _ => none
  | e :: r, k => if e.1 = k then some e.2 else alLookup r k

/-- `Map.has` on the chunk store. -/
def alHasKey {α : Type} (l : List ((ℚ × ℚ) × α)) (k : ℚ × ℚ) : Bool :=
  (alLookup l k).isSome

/-- `Map.set`: replace in place if the key is present, else append. -/
def alSet {α : Type} : List ((ℚ × ℚ) × α) → (ℚ × ℚ) → α → List ((ℚ × ℚ) × α)
  | [], k, v => [(k, v)]
  | e :: r, k, v => if e.1 = k then (k, v) :: r else e :: alSet r k v

/-- `Map.delete`.  A JS `Map` holds each key at most once; removing every
matching entry coincides with deleting the single one on every reachable
store and avoids threading a key-uniqueness invariant. -/
def alErase {α : Type} : List ((ℚ × ℚ) × α) → (ℚ × ℚ) → List ((ℚ × ℚ) × α)
  | [], _ => []
  | e :: r, k => if e.1 = k then alErase r k else e :: alErase r k

/-- The key list of a store. -/
def keysOf {α : Type} (l : List ((ℚ × ℚ) × α)) : List (ℚ × ℚ) := l.map (·.1)

/-- The `ChunkData` entry `loadChunk` builds for cell `(x, z)` at `lodIndex`
(lines 599-746): tree placements are pure in the cell coordinates; the grass
branch either builds a per-chunk instanced geometry with `bladeCount`
instances or, when the computed count is `≤ 0`, an empty `InstancedMesh`
directly on the shared LOD template (line 744). -/
def chunkDataFor (env : ProcEnv) (rng : ℕ → ℚ) (cfg : GrassConfig) (x z : ℚ)
    (lodIndex : ℤ) : ChunkData :=
  let debugMat := cfg.lodDebug.getD false
  let trees := treePlacements env cfg x z lodIndex
  let treeStore : Option (List TreeTransform) :=
    if 0 < trees.length then some trees else none
  let bladeCount := bladeCountFor cfg lodIndex
  if 0 < bladeCount then
    { grassGeo := GeoRef.perChunk x z, grassCount := bladeCount,
      grassInst := grassInstances env rng x z bladeCount.toNat,
      debugMat := debugMat, trees := treeStore, lodLevel := lodIndex }
  else
    { grassGeo := GeoRef.sharedLOD lodIndex.toNat, grassCount := 0,
      grassInst := [], debugMat := debugMat, trees := treeStore,
      lodLevel := lodIndex }

/-- `loadChunk(x, z, lodIndex)` (lines 595-746).  The early return fires when
`lodIndex` is outside the LOD table (line 597); the resource-presence guard
(line 602) never fires after construction, since `initResources`
unconditionally (re)creates every shared resource. -/
def loadChunk (env : ProcEnv) (rng : ℕ → ℚ) (s : EngineState) (x z : ℚ)
    (lodIndex : ℤ) : EngineState :=
  if lodIndex < 0 ∨ (LOD_LEVELS.length : ℤ) ≤ lodIndex then s
  else
    { s with chunks := alSet s.chunks (x, z) (chunkDataFor env rng s.config x z lodIndex) }

/-- `unloadChunk(key)` (lines 750-769): dispose the grass mesh's geometry,
the per-chunk ground geometry, and — only on the `lodDebug` path — the
per-chunk `MeshBasicMaterial`; then delete the key.  The returned list names
the objects `.dispose()` is called on; tree meshes are only removed from the
group, nothing tree-related is disposed. -/
def unloadChunk (s : EngineState) (key : ℚ × ℚ) : EngineState × List Resource :=
  match alLookup s.chunks key with
  | none => (s, [])
  | some c =>
      let grassGeoRes :=
        match c.grassGeo with
        | GeoRef.sharedLOD i => Resource.lodGeometry i
        | GeoRef.perChunk a b => Resource.chunkGrassGeometry a b
      let disposed :=
        [grassGeoRes, Resource.chunkGroundGeometry key.1 key.2]
          ++ (if c.debugMat then [Resource.chunkDebugMaterial key.1 key.2] else [])
      ({ s with chunks := alErase s.chunks key }, disposed)

/-- A chunk-store mutation performed during a refresh/rebuild. -/
inductive ChunkEvent where
  | load (x z : ℚ) (lod : ℤ)
  | unload (x z : ℚ)
deriving DecidableEq

/-- `Math.round(v / CHUNK_SIZE) * CHUNK_SIZE` (lines 780-781).  JS
`Math.round` rounds half toward `+∞`, which is Mathlib's `round`
(`round q = ⌊q + 1/2⌋`). -/
def chunkRound (v : ℚ) : ℚ := (round (v / CHUNK_SIZE) : ℤ) * CHUNK_SIZE

/-- The values taken by the loop
`for (x = c - range; x <= c + range; x += CHUNK_SIZE)` (lines 788-789):
`c - range + 30*k` for `k = 0, 1, ...` while still `≤ c + range`
(see `mem_gridVals` for the loop-semantics characterization). -/
def gridVals (c range : ℚ) : List ℚ :=
  (List.range (if 0 ≤ range then (⌊2 * range / CHUNK_SIZE⌋).toNat + 1 else 0)).map
    fun k : ℕ => c - range + CHUNK_SIZE * (k : ℚ)

/-- The `neededChunks` map built by `updateChunks` (lines 780-797), as a
function of the effective bias: every grid cell in the square window of
half-width `BASE_MAX_DISTANCE * bias` around the rounded camera cell whose
Euclidean distance to the camera puts it inside the LOD table.  The entry
order mirrors the two nested loops; keys never repeat (`gridVals` is
strictly increasing), matching the JS `Map`. -/
def neededChunksB (bias camX camZ : ℚ) : List ((ℚ × ℚ) × ℤ) :=
  let centerChunkX := chunkRound camX
  let centerChunkZ := chunkRound camZ
  let range := BASE_MAX_DISTANCE * bias
  (gridVals centerChunkX range).flatMap fun x =>
    (gridVals centerChunkZ range).filterMap fun z =>
      let lod := getLODLevelSqB bias ((x - camX) ^ 2 + (z - camZ) ^ 2)
      if lod = -1 then none else some ((x, z), lod)

/-- `neededChunks` as a function of the configuration
(`const bias = this.currentConfig.lodBias || 1.0`, line 783). -/
def neededChunks (cfg : GrassConfig) (camX camZ : ℚ) : List ((ℚ × ℚ) × ℤ) :=
  neededChunksB (effBias cfg.lodBias) camX camZ

/-- The first reconciliation loop of `updateChunks` (lines 799-806): walk the
snapshot of the chunk map and unload every entry that is not needed or whose
loaded LOD differs from the required one.  (Deleting the visited entry during
JS `Map` iteration is safe, so iterating the snapshot is faithful.) -/
def phase1 (needed : List ((ℚ × ℚ) × ℤ)) :
    List ((ℚ × ℚ) × ChunkData) → EngineState → EngineState × List ChunkEvent
  | [], s => (s, [])
  | (key, data) :: rest, s =>
      let doUnload :=
        match alLookup needed key with
        | none => true
        | some lod => lod ≠ data.lodLevel
      if doUnload then
        let s1 := (unloadChunk s key).1
        let p := phase1 needed rest s1
        (p.1, ChunkEvent.unload key.1 key.2 :: p.2)
      else phase1 needed rest s

/-- The second reconciliation loop of `updateChunks` (lines 808-812): load
every needed cell whose key is absent.  `rngs key` is the slice of the global
`Math.random()` stream consumed by that cell's `loadChunk` call. -/
def phase2 (env : ProcEnv) (rngs : (ℚ × ℚ) → ℕ → ℚ) :
    List ((ℚ × ℚ) × ℤ) → EngineState → EngineState × List ChunkEvent
  | [], s => (s, [])
  | (key, lod) :: rest, s =>
      if alHasKey s.chunks key then phase2 env rngs rest s
      else
        let s1 := loadChunk env (rngs key) s key.1 key.2 lod
        let p := phase2 env rngs rest s1
        (p.1, ChunkEvent.load key.1 key.2 lod :: p.2)

/-- `updateChunks()` (lines 771-822), the refresh entry point invoked every
frame by `animate`: early return unless the camera has moved at least
`UPDATE_THRESHOLD` (3D `distanceTo`, line 775) since the last applied
refresh; otherwise record the camera position, build the needed map and run
the two reconciliation loops.  (The trailing shadow-target snap and
`updateSun` touch only the light rig, not the store.) -/
def updateChunks (env : ProcEnv) (rngs : (ℚ × ℚ) → ℕ → ℚ) (s : EngineState)
    (cam : V3) : EngineState × List ChunkEvent :=
  if distSq3 s.lastUpdatePos cam < UPDATE_THRESHOLD ^ 2 then (s, [])
  else
    let s1 := { s with lastUpdatePos := cam }
    let needed := neededChunks s.config cam.x cam.z
    let p1 := phase1 needed s1.chunks s1
    let p2 := phase2 env rngs needed p1.1
    (p2.1, p1.2 ++ p2.2)

/-- The structural-change test of `updateConfig` (lines 828-836): any
difference in `bladeWidth`, `bladeHeight`, `bladeCount`, `lodBias`,
`lodDebug`, `peripheralDensity`, `treeDensity` or `treeScale`. -/
def structuralChange (prev next : GrassConfig) : Prop :=
  prev.bladeWidth ≠ next.bladeWidth ∨ prev.bladeHeight ≠ next.bladeHeight ∨
  prev.bladeCount ≠ next.bladeCount ∨ prev.lodBias ≠ next.lodBias ∨
  prev.lodDebug ≠ next.lodDebug ∨ prev.peripheralDensity ≠ next.peripheralDensity ∨
  prev.treeDensity ≠ next.treeDensity ∨ prev.treeScale ≠ next.treeScale

instance (prev next : GrassConfig) : Decidable (structuralChange prev next) := by
  unfold structuralChange; infer_instance

/-- `this.chunks.forEach((_, key) => this.unloadChunk(key))` (line 839). -/
def unloadAllGo : List ((ℚ × ℚ) × ChunkData) → EngineState → EngineState × List ChunkEvent
  | [], s => (s, [])
  | (key, _) :: rest, s =>
      let s1 := (unloadChunk s key).1
      let p := unloadAllGo rest s1
      (p.1, ChunkEvent.unload key.1 key.2 :: p.2)

/-- `updateConfig(config)` (lines 824-883) restricted to its store effect.
Structural branch: rebuild shared resources (`initResources`, scene-level,
not tracked here), unload every chunk, clear the map, reset `lastUpdatePos`
to the far sentinel `(99999, 99999, 99999)` and run `updateChunks`
immediately.  Cosmetic branch: patch material uniforms / fog only — the
chunk store is untouched and no load/unload happens. -/
def updateConfig (env : ProcEnv) (rngs : (ℚ × ℚ) → ℕ → ℚ) (s : EngineState)
    (cam : V3) (cfg : GrassConfig) : EngineState × List ChunkEvent :=
  let prev := s.config
  let s0 := { s with config := cfg }
  if structuralChange prev cfg then
    let p1 := unloadAllGo s0.chunks s0
    let sentinel : V3 := { x := 99999, y := 99999, z := 99999 }
    let s2 := { p1.1 with chunks := [], lastUpdatePos := sentinel }
    let p2 := updateChunks env rngs s2 cam
    (p2.1, p1.2 ++ p2.2)
  else (s0, [])

/-- The distance threshold of LOD table row `i`. -/
def lodDistance (i : ℕ) : ℚ :=
  (LOD_LEVELS.getD i { distance := 0, density := 0, segments := 0, castShadow := false }).distance

/-! ### Concrete instances for witnesses and counterexamples -/

/-- A plausible full configuration (field values are immaterial to the
theorems; `lodBias = 1`, no optional fields). -/
def cfgDefault : GrassConfig :=
  { bladeCount := 60000, bladeWidth := 0.08, bladeHeight := 1.2,
    windSpeed := 1, windStrength := 0.25,
    baseColor := "#2d5016", tipColor := "#9bc53d",
    sunElevation := 35, sunAzimuth := 120, sunIntensity := 1.2, sunColor := "#fff2cc",
    ambientIntensity := 0.4, fogDensity := 0.004, fogColor := "#dfe9f3",
    groundColor := "#3a5f0b", lodBias := 1,
    lodDebug := none, peripheralDensity := none, treeDensity := none,
    treeColor := none, treeScale := none }

/-- `cfgDefault` with a zero blade-count target. -/
def cfgZeroBlades : GrassConfig := { cfgDefault with bladeCount := 0 }

/-- `cfgDefault` with a negative blade-count target. -/
def cfgNegBlades : GrassConfig := { cfgDefault with bladeCount := -5 }

/-- Zero `lodBias` (falsy in JS) and no grass instances. -/
def cfgBias0 : GrassConfig := { cfgDefault with lodBias := 0, bladeCount := 0 }

/-- `lodBias = 1/5` (window half-width `30`) and no grass instances. -/
def cfgBias5th : GrassConfig := { cfgDefault with lodBias := 1/5, bladeCount := 0 }

/-- `lodBias = 1/2` (window half-width `75`, not a multiple of the chunk
size) and no grass instances. -/
def cfgBiasHalf : GrassConfig := { cfgDefault with lodBias := 1/2, bladeCount := 0 }

/-- A structural edit of `cfgZeroBlades` (blade height changed). -/
def cfgTaller : GrassConfig := { cfgZeroBlades with bladeHeight := 2 }

/-- A cosmetic edit of `cfgZeroBlades` (tip color changed only). -/
def cfgRecolor : GrassConfig := { cfgZeroBlades with tipColor := "#ff0000" }

/-- Trees enabled (density `1/2`), no grass instances. -/
def cfgTree : GrassConfig :=
  { cfgZeroBlades with treeDensity := some (1/2), treeScale := some 1 }

/-- A trivial process environment (flat noise, `sin = 0`, `cos = 1`). -/
def envTriv : ProcEnv := { noise2D := fun _ _ => 0, sinv := fun _ => 0, cosv := fun _ => 1 }

/-- A constant `Math.random()` stream. -/
def rngTriv : ℕ → ℚ := fun _ => 0

/-- A different constant `Math.random()` stream. -/
def rngHalf : ℕ → ℚ := fun _ => 1/2

/-- A constant per-chunk random-stream family. -/
def rngsTriv : (ℚ × ℚ) → ℕ → ℚ := fun _ _ => 0

/-- An engine state whose last applied refresh was at the origin. -/
def stateNear : EngineState :=
  { chunks := [], lastUpdatePos := { x := 0, y := 0, z := 0 }, config := cfgDefault }

/-- A fresh engine with one zero-blade chunk loaded at the origin cell. -/
def stateOneChunk : EngineState := loadChunk envTriv rngTriv (mkState cfgZeroBlades) 0 0 0

/-! ### Faithfulness and bookkeeping lemmas -/

theorem BASE_MAX_DISTANCE_eq : BASE_MAX_DISTANCE = 150 := rfl

/-- The squared-distance encoding of one comparison is exact:
`Math.sqrt d2 < t ↔ 0 < t ∧ d2 < t ^ 2` once `d2 = d ^ 2` with `0 ≤ d`. -/
theorem sq_cmp_exact (d t : ℚ) (hd : 0 ≤ d) :
    (0 < t ∧ d ^ 2 < t ^ 2) ↔ d < t := by
  constructor
  · rintro ⟨ht, hsq⟩
    nlinarith
  · intro h
    have ht : 0 < t := lt_of_le_of_lt hd h
    exact ⟨ht, by nlinarith⟩

theorem getLODLevelSqAux_eq (b d : ℚ) (hd : 0 ≤ d) :
    ∀ (l : List LODLevel) (i : ℤ),
      getLODLevelSqAux b (d ^ 2) l i = getLODLevelAux b d l i := by
  intro l
  induction l with
  | nil => intro i; rfl
  | cons hd' tl ih =>
      intro i
      simp only [getLODLevelSqAux, getLODLevelAux]
      rw [if_congr (sq_cmp_exact d (hd'.distance * b) hd) rfl (ih (i + 1))]

/-- The squared-distance LOD scan agrees with the source's scan on every
genuine distance. -/
theorem getLODLevelSqB_eq_getLODLevelB (b d : ℚ) (hd : 0 ≤ d) :
    getLODLevelSqB b (d ^ 2) = getLODLevelB b d :=
  getLODLevelSqAux_eq b d hd LOD_LEVELS 0

/-- Range of the LOD scan: either excluded (`-1`) or a genuine level in
`[0, 3)`, in which case the bias is positive and the squared distance is
strictly inside the biased outermost threshold. -/
theorem getLODLevelSqB_range (b d2 : ℚ) :
    getLODLevelSqB b d2 = -1 ∨
      (0 < b ∧ 0 ≤ getLODLevelSqB b d2 ∧ getLODLevelSqB b d2 < 3 ∧
        d2 < (BASE_MAX_DISTANCE * b) ^ 2) := by
  simp only [getLODLevelSqB, LOD_LEVELS, getLODLevelSqAux, BASE_MAX_DISTANCE_eq]
  split_ifs with h1 h2 h3
  · refine Or.inr ⟨by nlinarith [h1.1], by norm_num, by norm_num, ?_⟩
    have hb : 0 < b := by nlinarith [h1.1]
    nlinarith [h1.2, mul_pos hb hb]
  · refine Or.inr ⟨by nlinarith [h2.1], by norm_num, by norm_num, ?_⟩
    have hb : 0 < b := by nlinarith [h2.1]
    nlinarith [h2.2, mul_pos hb hb]
  · refine Or.inr ⟨by nlinarith [h3.1], by norm_num, by norm_num, h3.2⟩
  · exact Or.inl rfl

/-- Loop semantics of `gridVals`: its members are exactly the values the JS
loop `for (x = c - r; x <= c + r; x += CHUNK_SIZE)` visits. -/
theorem mem_gridVals {c r x : ℚ} (hx : x ∈ gridVals c r) :
    ∃ k : ℕ, x = c - r + CHUNK_SIZE * (k : ℚ) ∧ x ≤ c + r := by
  unfold gridVals at hx
  by_cases hr : 0 ≤ r
  · rw [if_pos hr] at hx
    rw [List.mem_map] at hx
    obtain ⟨k, hk, hxeq⟩ := hx
    rw [List.mem_range] at hk
    refine ⟨k, hxeq.symm, ?_⟩
    have hc : (0 : ℚ) < CHUNK_SIZE := by norm_num [CHUNK_SIZE]
    have hfl : (0 : ℤ) ≤ ⌊2 * r / CHUNK_SIZE⌋ := by
      apply Int.floor_nonneg.mpr
      positivity
    have hk2 : (k : ℤ) ≤ ⌊2 * r / CHUNK_SIZE⌋ := by omega
    have hq : (k : ℚ) ≤ 2 * r / CHUNK_SIZE := by
      have hkq : ((k : ℤ) : ℚ) ≤ (⌊2 * r / CHUNK_SIZE⌋ : ℚ) := by exact_mod_cast hk2
      have hfloor := Int.floor_le ((2 : ℚ) * r / CHUNK_SIZE)
      push_cast at hkq
      linarith
    rw [le_div_iff₀ hc, mul_comm] at hq
    rw [← hxeq]
    linarith
  · rw [if_neg hr] at hx
    rw [List.mem_map] at hx
    obtain ⟨k, hk, -⟩ := hx
    rw [List.mem_range] at hk
    omega

/-- A member of `gridVals` sits on the lattice `c - r + CHUNK_SIZE * ℤ`. -/
theorem mem_gridVals_lattice {c r x : ℚ} (hx : x ∈ gridVals c r) :
    ∃ k : ℤ, x = c - r + CHUNK_SIZE * (k : ℚ) := by
  obtain ⟨k, hk, -⟩ := mem_gridVals hx
  exact ⟨k, by exact_mod_cast hk⟩

theorem mem_keysOf_alSet {α : Type} (l : List ((ℚ × ℚ) × α)) (k a : ℚ × ℚ) (v : α) :
    a ∈ keysOf (alSet l k v) ↔ a = k ∨ a ∈ keysOf l := by
  induction l with
  | nil => simp [alSet, keysOf]
  | cons e r ih =>
      by_cases h : e.1 = k
      · subst h
        simp [alSet, keysOf]
      · simp only [alSet, if_neg h, keysOf, List.map_cons, List.mem_cons]
        rw [show (keysOf (alSet r k v) = List.map (·.1) (alSet r k v)) from rfl] at ih
        rw [show (keysOf r = List.map (·.1) r) from rfl] at ih
        rw [ih]
        tauto

theorem alLookup_alSet_self {α : Type} (l : List ((ℚ × ℚ) × α)) (k : ℚ × ℚ) (v : α) :
    alLookup (alSet l k v) k = some v := by
  induction l with
  | nil => simp [alSet, alLookup]
  | cons e r ih =>
      by_cases h : e.1 = k
      · simp [alSet, h, alLookup]
      · simp [alSet, h, alLookup, ih]

theorem mem_keysOf_alErase {α : Type} (l : List ((ℚ × ℚ) × α)) (k a : ℚ × ℚ) :
    a ∈ keysOf (alErase l k) ↔ a ∈ keysOf l ∧ a ≠ k := by
  induction l with
  | nil => simp [alErase, keysOf]
  | cons e r ih =>
      by_cases h : e.1 = k
      · simp only [alErase, if_pos h, keysOf, List.map_cons, List.mem_cons]
        rw [show (keysOf (alErase r k) = List.map (·.1) (alErase r k)) from rfl] at ih
        rw [show (keysOf r = List.map (·.1) r) from rfl] at ih
        rw [ih]
        subst h
        constructor
        · rintro ⟨hm, hne⟩; exact ⟨Or.inr hm, hne⟩
        · rintro ⟨hm | hm, hne⟩
          · exact absurd hm hne
          · exact ⟨hm, hne⟩
      · simp only [alErase, if_neg h, keysOf, List.map_cons, List.mem_cons]
        rw [show (keysOf (alErase r k) = List.map (·.1) (alErase r k)) from rfl] at ih
        rw [show (keysOf r = List.map (·.1) r) from rfl] at ih
        rw [ih]
        constructor
        · rintro (rfl | ⟨hm, hne⟩)
          · exact ⟨Or.inl rfl, fun hek => h (by rw [hek])⟩
          · exact ⟨Or.inr hm, hne⟩
        · rintro ⟨rfl | hm, hne⟩
          · exact Or.inl rfl
          · exact Or.inr ⟨hm, hne⟩

theorem alHasKey_iff {α : Type} (l : List ((ℚ × ℚ) × α)) (k : ℚ × ℚ) :
    alHasKey l k = true ↔ k ∈ keysOf l := by
  induction l with
  | nil => simp [alHasKey, alLookup, keysOf]
  | cons e r ih =>
      by_cases h : e.1 = k
      · simp [alHasKey, alLookup, h, keysOf]
      · simp only [alHasKey, alLookup, if_neg h, keysOf, List.map_cons, List.mem_cons]
        rw [show (alHasKey r k = (alLookup r k).isSome) from rfl] at ih
        rw [show (keysOf r = List.map (·.1) r) from rfl] at ih
        rw [ih]
        constructor
        · exact Or.inr
        · rintro (rfl | hm)
          · exact absurd rfl h
          · exact hm

theorem alLookup_mem_keysOf {α : Type} {l : List ((ℚ × ℚ) × α)} {k : ℚ × ℚ} {v : α}
    (h : alLookup l k = some v) : k ∈ keysOf l := by
  induction l with
  | nil => simp [alLookup] at h
  | cons e r ih =>
      by_cases he : e.1 = k
      · simp [keysOf, he]
      · simp only [alLookup, if_neg he] at h
        simp only [keysOf, List.map_cons, List.mem_cons]
        exact Or.inr (ih h)

theorem alLookup_none_not_mem {α : Type} {l : List ((ℚ × ℚ) × α)} {k : ℚ × ℚ}
    (h : alLookup l k = none) : k ∉ keysOf l := by
  induction l with
  | nil => simp [keysOf]
  | cons e r ih =>
      by_cases he : e.1 = k
      · simp [alLookup, he] at h
      · simp only [alLookup, if_neg he] at h
        simp only [keysOf, List.map_cons, List.mem_cons]
        rintro (rfl | hm)
        · exact he rfl
        · exact ih h hm

/-- A passing `loadChunk` call is exactly a `Map.set` of the freshly built
chunk entry. -/
theorem loadChunk_chunks_eq (env : ProcEnv) (rng : ℕ → ℚ) (s : EngineState)
    (x z : ℚ) (lodIndex : ℤ) (h0 : 0 ≤ lodIndex) (h3 : lodIndex < 3) :
    loadChunk env rng s x z lodIndex =
      { s with chunks := alSet s.chunks (x, z) (chunkDataFor env rng s.config x z lodIndex) } := by
  unfold loadChunk
  rw [if_neg]
  simp only [LOD_LEVELS, List.length_cons, List.length_nil]
  omega

/-- Membership in a needed-chunks entry list: the stored LOD came from the
squared-distance scan and is not `-1`, and the cell coordinates come from the
two grid loops. -/
theorem mem_neededChunksB {b camX camZ x z : ℚ} {lod : ℤ}
    (h : ((x, z), lod) ∈ neededChunksB b camX camZ) :
    lod = getLODLevelSqB b ((x - camX) ^ 2 + (z - camZ) ^ 2) ∧ lod ≠ -1 ∧
      x ∈ gridVals (chunkRound camX) (BASE_MAX_DISTANCE * b) ∧
      z ∈ gridVals (chunkRound camZ) (BASE_MAX_DISTANCE * b) := by
  unfold neededChunksB at h
  rw [List.mem_flatMap] at h
  obtain ⟨xv, hxv, h⟩ := h
  rw [List.mem_filterMap] at h
  obtain ⟨zv, hzv, h⟩ := h
  by_cases hlod : getLODLevelSqB b ((xv - camX) ^ 2 + (zv - camZ) ^ 2) = -1
  · rw [if_pos hlod] at h
    exact absurd h (by simp)
  · rw [if_neg hlod] at h
    have hx : x = xv ∧ z = zv ∧ lod = getLODLevelSqB b ((xv - camX) ^ 2 + (zv - camZ) ^ 2) := by
      have := Option.some.inj h
      refine ⟨congrArg (fun p => p.1.1) this.symm, congrArg (fun p => p.1.2) this.symm,
        congrArg (fun p => p.2) this.symm⟩
    obtain ⟨rfl, rfl, rfl⟩ := hx
    exact ⟨rfl, hlod, hxv, hzv⟩

/-- Every key present after the load loop was present before or is a needed
key; conversely nothing needed is missing afterwards. -/
theorem phase2_keys (env : ProcEnv) (rngs : (ℚ × ℚ) → ℕ → ℚ) :
    ∀ (l : List ((ℚ × ℚ) × ℤ)) (s : EngineState),
      (∀ e ∈ l, 0 ≤ e.2 ∧ e.2 < 3) →
      ∀ a, a ∈ keysOf (phase2 env rngs l s).1.chunks ↔
        a ∈ keysOf s.chunks ∨ a ∈ keysOf l := by
  intro l
  induction l with
  | nil =>
      intro s _ a
      simp [phase2, keysOf]
  | cons e rest ih =>
      intro s hl a
      obtain ⟨key, lod⟩ := e
      have hlod := hl (key, lod) (List.mem_cons_self _ _)
      by_cases hk : alHasKey s.chunks key
      · simp only [phase2, if_pos hk]
        rw [ih s (fun e he => hl e (List.mem_cons_of_mem _ he)) a]
        have hkm : key ∈ keysOf s.chunks := (alHasKey_iff _ _).mp hk
        simp only [keysOf, List.map_cons, List.mem_cons]
        constructor
        · rintro (h | h)
          · exact Or.inl h
          · exact Or.inr (Or.inr h)
        · rintro (h | rfl | h)
          · exact Or.inl h
          · exact Or.inl hkm
          · exact Or.inr h
      · simp only [phase2, if_neg hk]
        rw [ih _ (fun e he => hl e (List.mem_cons_of_mem _ he)) a]
        rw [loadChunk_chunks_eq env (rngs key) s key.1 key.2 lod hlod.1 hlod.2]
        simp only [keysOf, List.map_cons, List.mem_cons]
        rw [show ((key.1, key.2) = key) from rfl]
        rw [show (List.map (fun e => e.1) (alSet s.chunks key (chunkDataFor env (rngs key)
          s.config key.1 key.2 lod)) = keysOf (alSet s.chunks key (chunkDataFor env (rngs key)
          s.config key.1 key.2 lod))) from rfl]
        rw [mem_keysOf_alSet]
        tauto

/-- Every key surviving the unload loop was already loaded and is either a
needed key or was outside the iterated snapshot. -/
theorem phase1_keys_sub (needed : List ((ℚ × ℚ) × ℤ)) :
    ∀ (l : List ((ℚ × ℚ) × ChunkData)) (s : EngineState) (a : ℚ × ℚ),
      a ∈ keysOf (phase1 needed l s).1.chunks →
      a ∈ keysOf needed ∨ (a ∈ keysOf s.chunks ∧ a ∉ keysOf l) := by
  intro l
  induction l with
  | nil =>
      intro s a ha
      simp only [phase1] at ha
      exact Or.inr ⟨ha, by simp [keysOf]⟩
  | cons e rest ih =>
      intro s a ha
      obtain ⟨key, data⟩ := e
      simp only [phase1] at ha
      by_cases hu : (match alLookup needed key with
        | none => true
        | some lod => decide (lod ≠ data.lodLevel)) = true
      · rw [if_pos hu] at ha
        rcases ih _ a ha with h | ⟨hmem, hnot⟩
        · exact Or.inl h
        · unfold unloadChunk at hmem
          rcases hlook : alLookup s.chunks key with _ | c
          · rw [hlook] at hmem
            refine Or.inr ⟨hmem, ?_⟩
            intro hcons
            rcases (by simpa [keysOf] using hcons : a = key ∨ ∃ d, (a, d) ∈ rest) with
              rfl | ⟨d, htl⟩
            · exact alLookup_none_not_mem hlook hmem
            · exact hnot (List.mem_map.mpr ⟨(a, d), htl, rfl⟩)
          · rw [hlook] at hmem
            simp only at hmem
            rw [mem_keysOf_alErase] at hmem
            refine Or.inr ⟨hmem.1, ?_⟩
            intro hcons
            rcases (by simpa [keysOf] using hcons : a = key ∨ ∃ d, (a, d) ∈ rest) with
              rfl | ⟨d, htl⟩
            · exact hmem.2 rfl
            · exact hnot (List.mem_map.mpr ⟨(a, d), htl, rfl⟩)
      · rw [if_neg hu] at ha
        have hlook : ∃ lod, alLookup needed key = some lod := by
          rcases hl : alLookup needed key with _ | lod
          · rw [hl] at hu; simp at hu
          · exact ⟨lod, rfl⟩
        obtain ⟨lod, hl⟩ := hlook
        rcases ih _ a ha with h | ⟨hmem, hnot⟩
        · exact Or.inl h
        · by_cases hak : a = key
          · subst hak
            exact Or.inl (alLookup_mem_keysOf hl)
          · refine Or.inr ⟨hmem, ?_⟩
            intro hcons
            rcases (by simpa [keysOf] using hcons : a = key ∨ ∃ d, (a, d) ∈ rest) with
              rfl | ⟨d, htl⟩
            · exact hak rfl
            · exact hnot (List.mem_map.mpr ⟨(a, d), htl, rfl⟩)

/-- Every key in the iterated snapshot gets an `unload` event from the
structural-rebuild loop. -/
theorem unloadAllGo_events :
    ∀ (l : List ((ℚ × ℚ) × ChunkData)) (s : EngineState) (a : ℚ × ℚ),
      a ∈ keysOf l → ChunkEvent.unload a.1 a.2 ∈ (unloadAllGo l s).2 := by
  intro l
  induction l with
  | nil => intro s a ha; simp [keysOf] at ha
  | cons e rest ih =>
      intro s a ha
      rcases (by simpa [keysOf] using ha : a = e.1 ∨ ∃ d, (a, d) ∈ rest) with rfl | ⟨d, htl⟩
      · obtain ⟨key, data⟩ := e
        exact List.mem_cons_self _ _
      · obtain ⟨key, data⟩ := e
        exact List.mem_cons_of_mem _ (ih _ a (List.mem_map.mpr ⟨(a, d), htl, rfl⟩))

/-- `unloadChunk` and hence the rebuild loop never touch the configuration. -/
theorem unloadAllGo_config :
    ∀ (l : List ((ℚ × ℚ) × ChunkData)) (s : EngineState),
      (unloadAllGo l s).1.config = s.config := by
  intro l
  induction l with
  | nil => intro s; rfl
  | cons e rest ih =>
      intro s
      obtain ⟨key, data⟩ := e
      show (unloadAllGo rest (unloadChunk s key).1).1.config = s.config
      rw [ih]
      unfold unloadChunk
      rcases alLookup s.chunks key with _ | c <;> rfl

/-- The stored tree batch of a freshly built chunk entry does not depend on
the random stream: it is `treePlacements` wrapped by the
`trunks.length > 0` check, on both branches of the blade-count test. -/
theorem chunkDataFor_trees (env : ProcEnv) (rng : ℕ → ℚ) (cfg : GrassConfig)
    (x z : ℚ) (lodIndex : ℤ) :
    (chunkDataFor env rng cfg x z lodIndex).trees =
      (if 0 < (treePlacements env cfg x z lodIndex).length
       then some (treePlacements env cfg x z lodIndex) else none) := by
  unfold chunkDataFor
  by_cases hb : 0 < bladeCountFor cfg lodIndex <;>
    by_cases ht : 0 < (treePlacements env cfg x z lodIndex).length <;>
      simp [hb, ht]

/-- The LOD scan written out over the concrete table. -/
theorem getLODLevelB_eq_ifs (b d : ℚ) :
    getLODLevelB b d =
      if d < 45 * b then 0
      else if d < 85 * b then 1
      else if d < 150 * b then 2
      else -1 := by
  simp only [getLODLevelB, LOD_LEVELS, getLODLevelAux]
  norm_num

/-- Every entry of a needed-chunks list carries a genuine LOD level in
`[0, 3)`. -/
theorem neededChunks_lod_bounds (cfg : GrassConfig) (camX camZ : ℚ) :
    ∀ e ∈ neededChunks cfg camX camZ, 0 ≤ e.2 ∧ e.2 < 3 := by
  rintro ⟨⟨x, z⟩, lod⟩ hmem
  obtain ⟨hlod, hne, -, -⟩ := mem_neededChunksB hmem
  rcases getLODLevelSqB_range (effBias cfg.lodBias) ((x - camX) ^ 2 + (z - camZ) ^ 2) with
    h | ⟨-, h0, h3, -⟩
  · rw [hlod] at hne; exact absurd h hne
  · rw [hlod]; exact ⟨h0, h3⟩

/-- After an *applied* refresh (movement threshold passed), every loaded key
is a needed key. -/
theorem updateChunks_applied_keys_sub (env : ProcEnv) (rngs : (ℚ × ℚ) → ℕ → ℚ)
    (s : EngineState) (cam : V3)
    (hfar : ¬ distSq3 s.lastUpdatePos cam < UPDATE_THRESHOLD ^ 2) :
    ∀ key, key ∈ keysOf (updateChunks env rngs s cam).1.chunks →
      key ∈ keysOf (neededChunks s.config cam.x cam.z) := by
  intro key hk
  unfold updateChunks at hk
  rw [if_neg hfar] at hk
  simp only at hk
  rw [phase2_keys env rngs (neededChunks s.config cam.x cam.z) _
    (neededChunks_lod_bounds s.config cam.x cam.z) key] at hk
  rcases hk with hk | hk
  · rcases phase1_keys_sub (neededChunks s.config cam.x cam.z)
      { s with lastUpdatePos := cam }.chunks { s with lastUpdatePos := cam } key hk with
      h | ⟨hmem, hnot⟩
    · exact h
    · exact absurd hmem hnot
  · exact hk

/-- An applied refresh loads exactly the needed keys: afterwards the loaded
key set and the needed key set coincide. -/
theorem updateChunks_applied_keys_iff (env : ProcEnv) (rngs : (ℚ × ℚ) → ℕ → ℚ)
    (s : EngineState) (cam : V3)
    (hfar : ¬ distSq3 s.lastUpdatePos cam < UPDATE_THRESHOLD ^ 2) :
    ∀ key, key ∈ keysOf (updateChunks env rngs s cam).1.chunks ↔
      key ∈ keysOf (neededChunks s.config cam.x cam.z) := by
  intro key
  constructor
  · exact updateChunks_applied_keys_sub env rngs s cam hfar key
  · intro hneed
    unfold updateChunks
    rw [if_neg hfar]
    simp only
    rw [phase2_keys env rngs (neededChunks s.config cam.x cam.z) _
      (neededChunks_lod_bounds s.config cam.x cam.z) key]
    exact Or.inr hneed

/-- At `lodBias = 1/5` the origin cell is in the required set (window
half-width 30, squared distance 0). -/
theorem mem_neededChunks_origin_bias5th :
    (((0 : ℚ), (0 : ℚ)), (0 : ℤ)) ∈ neededChunks cfgBias5th 0 0 := by
  have hb : effBias cfgBias5th.lodBias = 1 / 5 := by
    norm_num [effBias, cfgBias5th, cfgDefault]
  have hc : chunkRound (0 : ℚ) = 0 := by
    norm_num [chunkRound, CHUNK_SIZE]
  have hlod : getLODLevelSqB (1 / 5 : ℚ) (((0 : ℚ) - 0) ^ 2 + ((0 : ℚ) - 0) ^ 2) = 0 := by
    norm_num [getLODLevelSqB, getLODLevelSqAux, LOD_LEVELS]
  unfold neededChunks
  simp only [neededChunksB]
  rw [hb, hc]
  rw [List.mem_flatMap]
  refine ⟨0, ?_, ?_⟩
  · unfold gridVals
    rw [if_pos (by norm_num [BASE_MAX_DISTANCE_eq])]
    refine List.mem_map.mpr ⟨1, List.mem_range.mpr ?_, ?_⟩
    · norm_num [BASE_MAX_DISTANCE_eq, CHUNK_SIZE, Int.toNat_ofNat]
    · norm_num [BASE_MAX_DISTANCE_eq, CHUNK_SIZE, Int.toNat_ofNat]
  · rw [List.mem_filterMap]
    refine ⟨0, ?_, ?_⟩
    · unfold gridVals
      rw [if_pos (by norm_num [BASE_MAX_DISTANCE_eq])]
      refine List.mem_map.mpr ⟨1, List.mem_range.mpr ?_, ?_⟩
      · norm_num [BASE_MAX_DISTANCE_eq, CHUNK_SIZE, Int.toNat_ofNat]
      · norm_num [BASE_MAX_DISTANCE_eq, CHUNK_SIZE, Int.toNat_ofNat]
    · rw [hlod]
      norm_num

theorem lodDistance0 : lodDistance 0 = 45 := rfl

theorem lodDistance1 : lodDistance 1 = 85 := rfl

theorem lodDistance2 : lodDistance 2 = 150 := rfl

/-! ### Claim theorems -/

/-- C4: if the camera has moved strictly less than the 5-unit movement
threshold since the last applied refresh, the next refresh is a no-op on the
chunk store — no chunk is loaded or unloaded and the state is unchanged. -/
theorem refresh_noop_below_threshold (env : ProcEnv) (rngs : (ℚ × ℚ) → ℕ → ℚ)
    (s : EngineState) (cam : V3)
    (h : distSq3 s.lastUpdatePos cam < UPDATE_THRESHOLD ^ 2) :
    updateChunks env rngs s cam = (s, []) := by
  unfold updateChunks
  rw [if_pos h]

/-- Witness for C4 at a camera strictly inside the movement threshold. -/
theorem refresh_noop_below_threshold_witness :
    distSq3 stateNear.lastUpdatePos { x := 1, y := 2, z := 0 } < UPDATE_THRESHOLD ^ 2 ∧
    updateChunks envTriv rngsTriv stateNear { x := 1, y := 2, z := 0 } = (stateNear, []) :=
  ⟨by norm_num [distSq3, stateNear, UPDATE_THRESHOLD],
   refresh_noop_below_threshold envTriv rngsTriv stateNear { x := 1, y := 2, z := 0 }
     (by norm_num [distSq3, stateNear, UPDATE_THRESHOLD])⟩

/-- C5: the LOD assignment returns level `i` exactly when the distance is
strictly below the `i`-th biased threshold and at or beyond every earlier
biased threshold; a distance equal to a biased threshold falls to the next
band, and a distance at or beyond the last biased threshold is excluded
(`-1`). -/
theorem getLODLevel_band_assignment (cfg : GrassConfig) (d : ℚ) (hd : 0 ≤ d)
    (hb : 0 < effBias cfg.lodBias) :
    (∀ i : ℕ, i < LOD_LEVELS.length →
      (getLODLevel cfg d = (i : ℤ) ↔
        (d < lodDistance i * effBias cfg.lodBias ∧
         ∀ j : ℕ, j < i → lodDistance j * effBias cfg.lodBias ≤ d))) ∧
    (∀ i : ℕ, i + 1 < LOD_LEVELS.length →
      d = lodDistance i * effBias cfg.lodBias → getLODLevel cfg d = (i : ℤ) + 1) ∧
    (lodDistance (LOD_LEVELS.length - 1) * effBias cfg.lodBias ≤ d →
      getLODLevel cfg d = -1) := by
  have hgl : getLODLevel cfg d =
      if d < 45 * effBias cfg.lodBias then 0
      else if d < 85 * effBias cfg.lodBias then 1
      else if d < 150 * effBias cfg.lodBias then 2
      else -1 := getLODLevelB_eq_ifs (effBias cfg.lodBias) d
  have h4585 : (45 : ℚ) * effBias cfg.lodBias < 85 * effBias cfg.lodBias := by nlinarith
  have h85150 : (85 : ℚ) * effBias cfg.lodBias < 150 * effBias cfg.lodBias := by nlinarith
  refine ⟨?_, ?_, ?_⟩
  · intro i hi
    have hi3 : i < 3 := by simpa [LOD_LEVELS] using hi
    interval_cases i
    · rw [lodDistance0]
      constructor
      · intro h
        rw [hgl] at h
        split_ifs at h with h1 h2 h3
        · exact ⟨h1, fun j hj => absurd hj (Nat.not_lt_zero j)⟩
        · exact absurd h (by norm_num)
        · exact absurd h (by norm_num)
      · rintro ⟨h1, -⟩
        have hv : getLODLevel cfg d = 0 := by rw [hgl, if_pos h1]
        rw [hv]
        norm_num
    · rw [lodDistance1]
      constructor
      · intro h
        rw [hgl] at h
        split_ifs at h with h1 h2 h3
        · exact absurd h (by norm_num)
        · refine ⟨h2, fun j hj => ?_⟩
          interval_cases j
          rw [lodDistance0]
          exact not_lt.mp h1
        · exact absurd h (by norm_num)
      · rintro ⟨hlt, hge⟩
        have h45 := hge 0 (by norm_num)
        rw [lodDistance0] at h45
        have hv : getLODLevel cfg d = 1 := by
          rw [hgl, if_neg (not_lt.mpr h45), if_pos hlt]
        rw [hv]
        norm_num
    · rw [lodDistance2]
      constructor
      · intro h
        rw [hgl] at h
        split_ifs at h with h1 h2 h3
        · exact absurd h (by norm_num)
        · exact absurd h (by norm_num)
        · refine ⟨h3, fun j hj => ?_⟩
          interval_cases j
          · rw [lodDistance0]; exact not_lt.mp h1
          · rw [lodDistance1]; exact not_lt.mp h2
      · rintro ⟨hlt, hge⟩
        have h45 := hge 0 (by norm_num)
        have h85 := hge 1 (by norm_num)
        rw [lodDistance0] at h45
        rw [lodDistance1] at h85
        have hv : getLODLevel cfg d = 2 := by
          rw [hgl, if_neg (not_lt.mpr h45), if_neg (not_lt.mpr h85), if_pos hlt]
        rw [hv]
        norm_num
  · intro i hi heq
    have hi2 : i < 2 := by
      have : i + 1 < 3 := by simpa [LOD_LEVELS] using hi
      omega
    interval_cases i
    · rw [lodDistance0] at heq
      have hv : getLODLevel cfg d = 1 := by
        rw [hgl, if_neg (not_lt.mpr (le_of_eq heq.symm)), if_pos (by linarith)]
      rw [hv]
      norm_num
    · rw [lodDistance1] at heq
      have hv : getLODLevel cfg d = 2 := by
        rw [hgl, if_neg (by rw [heq]; exact not_lt.mpr (le_of_lt h4585)),
          if_neg (not_lt.mpr (le_of_eq heq.symm)), if_pos (by linarith)]
      rw [hv]
      norm_num
  · intro hfar
    have hfar2 : lodDistance 2 * effBias cfg.lodBias ≤ d := by
      simpa [LOD_LEVELS] using hfar
    rw [lodDistance2] at hfar2
    rw [hgl, if_neg (by linarith), if_neg (by linarith), if_neg (not_lt.mpr hfar2)]

/-- Witness for C5 at bias 1: distance 50 is band 1, the boundary distance 45
falls to band 1, and distance 150 is excluded. -/
theorem getLODLevel_band_assignment_witness :
    getLODLevel cfgDefault 50 = 1 ∧ getLODLevel cfgDefault 45 = 1 ∧
    getLODLevel cfgDefault 150 = -1 := by
  have hb : 0 < effBias cfgDefault.lodBias := by norm_num [effBias, cfgDefault]
  have hbe : effBias cfgDefault.lodBias = 1 := by norm_num [effBias, cfgDefault]
  refine ⟨?_, ?_, ?_⟩
  · have h := ((getLODLevel_band_assignment cfgDefault 50 (by norm_num) hb).1 1
      (by norm_num [LOD_LEVELS])).mpr
      ⟨by rw [lodDistance1, hbe]; norm_num,
       fun j hj => by
        interval_cases j
        rw [lodDistance0, hbe]
        norm_num⟩
    simpa using h
  · have h := (getLODLevel_band_assignment cfgDefault 45 (by norm_num) hb).2.1 0
      (by norm_num [LOD_LEVELS]) (by rw [lodDistance0, hbe]; norm_num)
    simpa using h
  · exact (getLODLevel_band_assignment cfgDefault 150 (by norm_num) hb).2.2
      (by show lodDistance 2 * effBias cfgDefault.lodBias ≤ 150
          rw [lodDistance2, hbe]
          norm_num)

/-- C6: LOD assignment is monotone in distance — whenever two distances both
receive a genuine level, the nearer one's level index is no larger. -/
theorem getLODLevel_monotone (cfg : GrassConfig) (d1 d2 : ℚ) (h12 : d1 < d2)
    (h1 : getLODLevel cfg d1 ≠ -1) (h2 : getLODLevel cfg d2 ≠ -1) :
    getLODLevel cfg d1 ≤ getLODLevel cfg d2 := by
  have e1 := getLODLevelB_eq_ifs (effBias cfg.lodBias) d1
  have e2 := getLODLevelB_eq_ifs (effBias cfg.lodBias) d2
  unfold getLODLevel at h1 h2 ⊢
  rw [e1] at h1 ⊢
  rw [e2] at h2 ⊢
  split_ifs at h1 h2 ⊢ <;> first | omega | (exfalso; linarith)

/-- Witness for C6 at distances 10 < 50 under the default bias. -/
theorem getLODLevel_monotone_witness :
    getLODLevel cfgDefault 10 ≤ getLODLevel cfgDefault 50 :=
  getLODLevel_monotone cfgDefault 10 50 (by norm_num)
    (by rw [show getLODLevel cfgDefault 10 =
          getLODLevelB (effBias cfgDefault.lodBias) 10 from rfl,
        getLODLevelB_eq_ifs, show effBias cfgDefault.lodBias = 1 from by
          norm_num [effBias, cfgDefault]]
        norm_num)
    (by rw [show getLODLevel cfgDefault 50 =
          getLODLevelB (effBias cfgDefault.lodBias) 50 from rfl,
        getLODLevelB_eq_ifs, show effBias cfgDefault.lodBias = 1 from by
          norm_num [effBias, cfgDefault]]
        norm_num)

/-- C10: a configuration with `lodBias = 0` behaves exactly like `lodBias
= 1`: both the LOD-level assignment and the needed-chunk computation
substitute `1.0` for the falsy zero, so a zero bias yields the full default
chunk set. -/
theorem lodBias_zero_defaults_to_one (cfg : GrassConfig) (d camX camZ : ℚ) :
    getLODLevel { cfg with lodBias := 0 } d = getLODLevel { cfg with lodBias := 1 } d ∧
    neededChunks { cfg with lodBias := 0 } camX camZ =
      neededChunks { cfg with lodBias := 1 } camX camZ := by
  have h : effBias ({ cfg with lodBias := 0 } : GrassConfig).lodBias =
      effBias ({ cfg with lodBias := 1 } : GrassConfig).lodBias := by
    simp [effBias]
  exact ⟨by unfold getLODLevel; rw [h], by unfold neededChunks; rw [h]⟩

/-- C8: when the computed blade count is zero or negative (including a
negative `bladeCount` in the configuration), `loadChunk` does not fail: it
still inserts a tracked entry for the cell whose grass batch has zero
instances. -/
theorem loadChunk_nonpositive_blade_count (env : ProcEnv) (rng : ℕ → ℚ)
    (s : EngineState) (x z : ℚ) (lodIndex : ℤ)
    (h0 : 0 ≤ lodIndex) (h3 : lodIndex < 3)
    (hbc : bladeCountFor s.config lodIndex ≤ 0) :
    alLookup (loadChunk env rng s x z lodIndex).chunks (x, z) =
      some (chunkDataFor env rng s.config x z lodIndex) ∧
    (chunkDataFor env rng s.config x z lodIndex).grassCount = 0 ∧
    (chunkDataFor env rng s.config x z lodIndex).grassInst = [] ∧
    (chunkDataFor env rng s.config x z lodIndex).lodLevel = lodIndex := by
  refine ⟨?_, ?_, ?_, ?_⟩
  · rw [loadChunk_chunks_eq env rng s x z lodIndex h0 h3]
    exact alLookup_alSet_self s.chunks (x, z) _
  · simp only [chunkDataFor]
    rw [if_neg (not_lt.mpr hbc)]
  · simp only [chunkDataFor]
    rw [if_neg (not_lt.mpr hbc)]
  · simp only [chunkDataFor]
    rw [if_neg (not_lt.mpr hbc)]

/-- Witness for C8: a negative configured blade count (−5) still yields a
tracked empty chunk. -/
theorem loadChunk_nonpositive_blade_count_witness :
    alLookup (loadChunk envTriv rngTriv (mkState cfgNegBlades) 12 (-18) 0).chunks (12, -18) =
      some (chunkDataFor envTriv rngTriv cfgNegBlades 12 (-18) 0) ∧
    (chunkDataFor envTriv rngTriv cfgNegBlades 12 (-18) 0).grassCount = 0 ∧
    (chunkDataFor envTriv rngTriv cfgNegBlades 12 (-18) 0).grassInst = [] ∧
    (chunkDataFor envTriv rngTriv cfgNegBlades 12 (-18) 0).lodLevel = 0 := by
  have hbc : bladeCountFor (mkState cfgNegBlades).config 0 ≤ 0 := by
    have h1 : bladeCountFor (mkState cfgNegBlades).config 0 = ⌊(-9 / 80 : ℚ)⌋ := by
      norm_num [bladeCountFor, getBladeDensity, LOD_LEVELS, CHUNK_SIZE, jsCoalesceOne,
        mkState, cfgNegBlades, cfgDefault]
    rw [h1]
    norm_num [Int.floor_eq_iff]
  exact loadChunk_nonpositive_blade_count envTriv rngTriv (mkState cfgNegBlades) 12 (-18) 0
    (by norm_num) (by norm_num) hbc

/-- C9: tree placement is deterministic within a process — for a fixed noise
permutation (`env`) and a fixed configuration, any two `loadChunk` calls with
the same `(x, z, lodIndex)` store exactly the same tree transform batch,
whatever `Math.random()` streams the grass sampling consumes: the batch is
the pure `treePlacements` function of the cell coordinates. -/
theorem treePlacements_deterministic (env : ProcEnv) (r1 r2 : ℕ → ℚ)
    (s1 s2 : EngineState) (x z : ℚ) (lodIndex : ℤ)
    (hcfg : s1.config = s2.config) (h0 : 0 ≤ lodIndex) (h3 : lodIndex < 3) :
    alLookup (loadChunk env r1 s1 x z lodIndex).chunks (x, z) =
      some (chunkDataFor env r1 s1.config x z lodIndex) ∧
    alLookup (loadChunk env r2 s2 x z lodIndex).chunks (x, z) =
      some (chunkDataFor env r2 s2.config x z lodIndex) ∧
    (chunkDataFor env r1 s1.config x z lodIndex).trees =
      (chunkDataFor env r2 s2.config x z lodIndex).trees ∧
    (chunkDataFor env r1 s1.config x z lodIndex).trees =
      (if 0 < (treePlacements env s1.config x z lodIndex).length
       then some (treePlacements env s1.config x z lodIndex) else none) := by
  refine ⟨?_, ?_, ?_, ?_⟩
  · rw [loadChunk_chunks_eq env r1 s1 x z lodIndex h0 h3]
    exact alLookup_alSet_self s1.chunks (x, z) _
  · rw [loadChunk_chunks_eq env r2 s2 x z lodIndex h0 h3]
    exact alLookup_alSet_self s2.chunks (x, z) _
  · rw [chunkDataFor_trees, chunkDataFor_trees, hcfg]
  · exact chunkDataFor_trees env r1 s1.config x z lodIndex

/-- Witness for C9: two different random streams store the same tree batch
for the origin cell of a tree-enabled configuration. -/
theorem treePlacements_deterministic_witness :
    (alLookup (loadChunk envTriv rngTriv (mkState cfgTree) 0 0 0).chunks (0, 0)).map
        ChunkData.trees =
      (alLookup (loadChunk envTriv rngHalf (mkState cfgTree) 0 0 0).chunks (0, 0)).map
        ChunkData.trees := by
  obtain ⟨ha, hb, hc, -⟩ := treePlacements_deterministic envTriv rngTriv rngHalf
    (mkState cfgTree) (mkState cfgTree) 0 0 0 rfl (by norm_num) (by norm_num)
  rw [ha, hb]
  simp [hc]

/-- C1 (defect evidence): a chunk whose computed blade count is zero stores
an empty grass mesh built directly on the shared LOD template geometry, so
`unloadChunk` calls `.dispose()` on the *shared* `lodGeometries[0]` — the
spec says shared LOD template geometry is never released by unload. -/
theorem unloadChunk_zero_blade_disposes_shared_template :
    bladeCountFor cfgZeroBlades 0 = 0 ∧
    Resource.lodGeometry 0 ∈ (unloadChunk stateOneChunk (0, 0)).2 := by
  have hbc : bladeCountFor cfgZeroBlades 0 = 0 := by
    norm_num [bladeCountFor, getBladeDensity, LOD_LEVELS, CHUNK_SIZE, jsCoalesceOne,
      cfgZeroBlades, cfgDefault]
  refine ⟨hbc, ?_⟩
  have hchunks : stateOneChunk.chunks =
      [((0, 0), chunkDataFor envTriv rngTriv cfgZeroBlades 0 0 0)] := by
    unfold stateOneChunk
    rw [loadChunk_chunks_eq envTriv rngTriv (mkState cfgZeroBlades) 0 0 0
      (by norm_num) (by norm_num)]
    rfl
  have hcd : (chunkDataFor envTriv rngTriv cfgZeroBlades 0 0 0).grassGeo =
      GeoRef.sharedLOD 0 := by
    simp only [chunkDataFor]
    rw [if_neg (by rw [hbc]; norm_num)]
    rfl
  have hlk : alLookup stateOneChunk.chunks (0, 0) =
      some (chunkDataFor envTriv rngTriv cfgZeroBlades 0 0 0) := by
    rw [hchunks]
    simp [alLookup]
  unfold unloadChunk
  rw [hlk]
  simp only [hcd]
  exact List.mem_append_left _ (List.mem_cons_self _ _)

/-- C2: a structural configuration change (any difference in `bladeWidth`,
`bladeHeight`, `bladeCount`, `lodBias`, `lodDebug`, `peripheralDensity`,
`treeDensity` or `treeScale`) unloads every previously loaded chunk key and
immediately reloads exactly the required set (the sentinel reset makes the
inner refresh apply for any camera at least the movement threshold away from
`(99999, 99999, 99999)`); a cosmetic change performs no chunk load or unload
and leaves the chunk store untouched. -/
theorem updateConfig_structural_vs_cosmetic (env : ProcEnv) (rngs : (ℚ × ℚ) → ℕ → ℚ)
    (s : EngineState) (cam : V3) (cfg : GrassConfig) :
    (structuralChange s.config cfg →
      UPDATE_THRESHOLD ^ 2 ≤ distSq3 { x := 99999, y := 99999, z := 99999 } cam →
      ((∀ key ∈ keysOf s.chunks,
          ChunkEvent.unload key.1 key.2 ∈ (updateConfig env rngs s cam cfg).2) ∧
       (∀ key, key ∈ keysOf (updateConfig env rngs s cam cfg).1.chunks ↔
          key ∈ keysOf (neededChunks cfg cam.x cam.z)))) ∧
    ((¬ structuralChange s.config cfg) →
      (updateConfig env rngs s cam cfg).1.chunks = s.chunks ∧
      (updateConfig env rngs s cam cfg).2 = []) := by
  constructor
  · intro hst hfar
    have hfar2 : ¬ distSq3 ({ x := 99999, y := 99999, z := 99999 } : V3) cam <
        UPDATE_THRESHOLD ^ 2 := not_lt.mpr hfar
    simp only [updateConfig]
    rw [if_pos hst]
    constructor
    · intro key hk
      exact List.mem_append_left _ (unloadAllGo_events _ _ key hk)
    · intro key
      have hcfg2 :
          ((unloadAllGo ({ s with config := cfg } : EngineState).chunks
            { s with config := cfg }).1).config = cfg :=
        unloadAllGo_config _ _
      have hkey := updateChunks_applied_keys_iff env rngs
        { (unloadAllGo ({ s with config := cfg } : EngineState).chunks
            { s with config := cfg }).1 with
          chunks := [], lastUpdatePos := { x := 99999, y := 99999, z := 99999 } }
        cam hfar2 key
      rw [show ({ (unloadAllGo ({ s with config := cfg } : EngineState).chunks
            { s with config := cfg }).1 with
          chunks := ([] : List ((ℚ × ℚ) × ChunkData)),
          lastUpdatePos := { x := 99999, y := 99999, z := 99999 } } : EngineState).config = cfg
        from hcfg2] at hkey
      exact hkey
  · intro hns
    simp only [updateConfig]
    rw [if_neg hns]
    exact ⟨rfl, rfl⟩

/-- Witness for C2: from a one-chunk store, a blade-height change unloads the
origin chunk and the store afterwards matches the required set; re-applying a
tip-color-only change touches nothing. -/
theorem updateConfig_structural_vs_cosmetic_witness :
    (ChunkEvent.unload 0 0 ∈
      (updateConfig envTriv rngsTriv stateOneChunk { x := 0, y := 15, z := 40 } cfgTaller).2) ∧
    (((0 : ℚ), (0 : ℚ)) ∈ keysOf
        (updateConfig envTriv rngsTriv stateOneChunk { x := 0, y := 15, z := 40 }
          cfgTaller).1.chunks ↔
      ((0 : ℚ), (0 : ℚ)) ∈ keysOf (neededChunks cfgTaller 0 40)) ∧
    ((updateConfig envTriv rngsTriv stateOneChunk { x := 0, y := 15, z := 40 }
        cfgRecolor).1.chunks = stateOneChunk.chunks ∧
     (updateConfig envTriv rngsTriv stateOneChunk { x := 0, y := 15, z := 40 }
        cfgRecolor).2 = []) := by
  have hst : structuralChange stateOneChunk.config cfgTaller :=
    Or.inr (Or.inl (by show (1.2 : ℚ) ≠ 2; norm_num))
  have hfar : UPDATE_THRESHOLD ^ 2 ≤
      distSq3 { x := 99999, y := 99999, z := 99999 } { x := 0, y := 15, z := 40 } := by
    norm_num [distSq3, UPDATE_THRESHOLD]
  have hns : ¬ structuralChange stateOneChunk.config cfgRecolor := by
    rintro (h | h | h | h | h | h | h | h) <;> exact h rfl
  have H := updateConfig_structural_vs_cosmetic envTriv rngsTriv stateOneChunk
    { x := 0, y := 15, z := 40 } cfgTaller
  have Hc := updateConfig_structural_vs_cosmetic envTriv rngsTriv stateOneChunk
    { x := 0, y := 15, z := 40 } cfgRecolor
  have hk00 : ((0 : ℚ), (0 : ℚ)) ∈ keysOf stateOneChunk.chunks := by
    exact List.mem_map.mpr
      ⟨((0, 0), chunkDataFor envTriv rngTriv cfgZeroBlades 0 0 0),
       List.mem_singleton.mpr rfl, rfl⟩
  exact ⟨(H.1 hst hfar).1 (0, 0) hk00, (H.1 hst hfar).2 (0, 0), Hc.2 hns⟩

/-- C3 (amended): the required chunk set never contains a cell whose
Euclidean distance from the camera reaches `BASE_MAX_DISTANCE` times the
*effective* bias (`lodBias`, with a falsy zero replaced by `1.0`), and after
an applied refresh every loaded key is a required key. -/
theorem loaded_chunks_within_biased_range :
    (∀ (cfg : GrassConfig) (camX camZ x z : ℚ) (lod : ℤ),
      ((x, z), lod) ∈ neededChunks cfg camX camZ →
      0 < effBias cfg.lodBias ∧
      (x - camX) ^ 2 + (z - camZ) ^ 2 < (BASE_MAX_DISTANCE * effBias cfg.lodBias) ^ 2) ∧
    (∀ (env : ProcEnv) (rngs : (ℚ × ℚ) → ℕ → ℚ) (s : EngineState) (cam : V3),
      UPDATE_THRESHOLD ^ 2 ≤ distSq3 s.lastUpdatePos cam →
      ∀ key, key ∈ keysOf (updateChunks env rngs s cam).1.chunks →
        key ∈ keysOf (neededChunks s.config cam.x cam.z)) := by
  constructor
  · intro cfg camX camZ x z lod hmem
    unfold neededChunks at hmem
    obtain ⟨hlod, hne, -, -⟩ := mem_neededChunksB hmem
    rcases getLODLevelSqB_range (effBias cfg.lodBias) ((x - camX) ^ 2 + (z - camZ) ^ 2) with
      h | ⟨hb, -, -, hd⟩
    · rw [hlod] at hne; exact absurd h hne
    · exact ⟨hb, hd⟩
  · intro env rngs s cam hfar key hk
    exact updateChunks_applied_keys_sub env rngs s cam (not_lt.mpr hfar) key hk

/-- Witness for C3 at `lodBias = 1/5`: the origin cell is required and lies
strictly inside the biased radius 30. -/
theorem loaded_chunks_within_biased_range_witness :
    (((0 : ℚ), (0 : ℚ)), (0 : ℤ)) ∈ neededChunks cfgBias5th 0 0 ∧
    0 < effBias cfgBias5th.lodBias ∧
    ((0 : ℚ) - 0) ^ 2 + ((0 : ℚ) - 0) ^ 2 <
      (BASE_MAX_DISTANCE * effBias cfgBias5th.lodBias) ^ 2 :=
  ⟨mem_neededChunks_origin_bias5th,
   loaded_chunks_within_biased_range.1 cfgBias5th 0 0 0 0 0
     mem_neededChunks_origin_bias5th⟩

/-- Counterexample for C3 as stated: with the configuration's `lodBias = 0`
the required set still contains the cell at distance 30, which exceeds
`BASE_MAX_DISTANCE * lodBias = 0`. -/
theorem needed_chunk_beyond_raw_lodBias_range :
    (((30 : ℚ), (0 : ℚ)), (0 : ℤ)) ∈ neededChunks cfgBias0 0 0 ∧
    (BASE_MAX_DISTANCE * cfgBias0.lodBias) ^ 2 < ((30 : ℚ) - 0) ^ 2 + ((0 : ℚ) - 0) ^ 2 := by
  have hb : effBias cfgBias0.lodBias = 1 := by
    norm_num [effBias, cfgBias0, cfgDefault]
  have hc : chunkRound (0 : ℚ) = 0 := by
    norm_num [chunkRound, CHUNK_SIZE]
  have hlod : getLODLevelSqB (1 : ℚ) (((30 : ℚ) - 0) ^ 2 + ((0 : ℚ) - 0) ^ 2) = 0 := by
    norm_num [getLODLevelSqB, getLODLevelSqAux, LOD_LEVELS]
  constructor
  · unfold neededChunks
    simp only [neededChunksB]
    rw [hb, hc]
    rw [List.mem_flatMap]
    refine ⟨30, ?_, ?_⟩
    · unfold gridVals
      rw [if_pos (by norm_num [BASE_MAX_DISTANCE_eq])]
      refine List.mem_map.mpr ⟨6, List.mem_range.mpr ?_, ?_⟩
      · norm_num [BASE_MAX_DISTANCE_eq, CHUNK_SIZE, Int.toNat_ofNat]
        omega
      · norm_num [BASE_MAX_DISTANCE_eq, CHUNK_SIZE, Int.toNat_ofNat]
    · rw [List.mem_filterMap]
      refine ⟨0, ?_, ?_⟩
      · unfold gridVals
        rw [if_pos (by norm_num [BASE_MAX_DISTANCE_eq])]
        refine List.mem_map.mpr ⟨5, List.mem_range.mpr ?_, ?_⟩
        · norm_num [BASE_MAX_DISTANCE_eq, CHUNK_SIZE, Int.toNat_ofNat]
          omega
        · norm_num [BASE_MAX_DISTANCE_eq, CHUNK_SIZE, Int.toNat_ofNat]
      · rw [hlod]
        norm_num
  · norm_num [BASE_MAX_DISTANCE_eq, cfgBias0, cfgDefault]

/-- C7 (amended): every required key lies on the lattice offset by the biased
window half-width — `x + BASE_MAX_DISTANCE * effBias` and
`z + BASE_MAX_DISTANCE * effBias` are integer multiples of the 30-unit chunk
size.  (Keys are themselves multiples of 30 exactly when `150 * lodBias` is;
the offset depends only on the configuration, so the same world cell keeps
the same key across refreshes with a fixed configuration.) -/
theorem needed_keys_on_biased_lattice (cfg : GrassConfig) (camX camZ x z : ℚ) (lod : ℤ)
    (h : ((x, z), lod) ∈ neededChunks cfg camX camZ) :
    ∃ mx mz : ℤ, x + BASE_MAX_DISTANCE * effBias cfg.lodBias = CHUNK_SIZE * mx ∧
      z + BASE_MAX_DISTANCE * effBias cfg.lodBias = CHUNK_SIZE * mz := by
  unfold neededChunks at h
  obtain ⟨-, -, hx, hz⟩ := mem_neededChunksB h
  obtain ⟨kx, hkx⟩ := mem_gridVals_lattice hx
  obtain ⟨kz, hkz⟩ := mem_gridVals_lattice hz
  refine ⟨round (camX / CHUNK_SIZE) + kx, round (camZ / CHUNK_SIZE) + kz, ?_, ?_⟩
  · rw [hkx]
    unfold chunkRound
    push_cast
    ring
  · rw [hkz]
    unfold chunkRound
    push_cast
    ring

/-- Witness for C7 at `lodBias = 1/5`: the origin key sits on the lattice
offset by 30. -/
theorem needed_keys_on_biased_lattice_witness :
    ∃ mx mz : ℤ, (0 : ℚ) + BASE_MAX_DISTANCE * effBias cfgBias5th.lodBias = CHUNK_SIZE * mx ∧
      (0 : ℚ) + BASE_MAX_DISTANCE * effBias cfgBias5th.lodBias = CHUNK_SIZE * mz :=
  needed_keys_on_biased_lattice cfgBias5th 0 0 0 0 0 mem_neededChunks_origin_bias5th

/-- Counterexample for C7 as stated: with `lodBias = 1/2` the refresh inserts
the key `(-15, -15)`, and `-15` is not an integer multiple of the 30-unit
chunk size. -/
theorem needed_chunk_key_off_grid :
    ((((-15) : ℚ), ((-15) : ℚ)), (0 : ℤ)) ∈ neededChunks cfgBiasHalf 0 0 ∧
    ¬ ∃ m : ℤ, ((-15) : ℚ) = CHUNK_SIZE * m := by
  have hb : effBias cfgBiasHalf.lodBias = 1 / 2 := by
    norm_num [effBias, cfgBiasHalf, cfgDefault]
  have hc : chunkRound (0 : ℚ) = 0 := by
    norm_num [chunkRound, CHUNK_SIZE]
  have hlod : getLODLevelSqB (1 / 2 : ℚ)
      ((((-15) : ℚ) - 0) ^ 2 + (((-15) : ℚ) - 0) ^ 2) = 0 := by
    norm_num [getLODLevelSqB, getLODLevelSqAux, LOD_LEVELS]
  constructor
  · unfold neededChunks
    simp only [neededChunksB]
    rw [hb, hc]
    rw [List.mem_flatMap]
    refine ⟨-15, ?_, ?_⟩
    · unfold gridVals
      rw [if_pos (by norm_num [BASE_MAX_DISTANCE_eq])]
      refine List.mem_map.mpr ⟨2, List.mem_range.mpr ?_, ?_⟩
      · norm_num [BASE_MAX_DISTANCE_eq, CHUNK_SIZE, Int.toNat_ofNat]
        omega
      · norm_num [BASE_MAX_DISTANCE_eq, CHUNK_SIZE, Int.toNat_ofNat]
    · rw [List.mem_filterMap]
      refine ⟨-15, ?_, ?_⟩
      · unfold gridVals
        rw [if_pos (by norm_num [BASE_MAX_DISTANCE_eq])]
        refine List.mem_map.mpr ⟨2, List.mem_range.mpr ?_, ?_⟩
        · norm_num [BASE_MAX_DISTANCE_eq, CHUNK_SIZE, Int.toNat_ofNat]
          omega
        · norm_num [BASE_MAX_DISTANCE_eq, CHUNK_SIZE, Int.toNat_ofNat]
      · rw [hlod]
        norm_num
  · rintro ⟨m, hm⟩
    rw [CHUNK_SIZE] at hm
    have h2 : (2 : ℚ) * (m : ℚ) = -1 := by linarith
    have h3 : (2 * m : ℤ) = -1 := by exact_mod_cast h2
    omega

end Grass
